import Mathlib

/-!
Verification development for the agentic developer platform orchestrator.

Shallow embedding of:
  - `app/models/schemas.py` (the pydantic output models),
  - `app/utils/approval_store.py` (the in-memory pending-approval store),
  - `app/skills/validation_skill.py` (`validate_db_design`),
  - `app/orchestrator/orchestrator.py` (`run_orchestration`,
    `run_orchestration_continue`, `_run_git_and_finish`).

External LLM-backed stages (`interpret_requirements`, `design_database`,
`review_database_design`, `propose_git_strategy`) are modelled as oracle
functions returning `Except String _` — a raised exception is the `.error`
case carrying `str(e)`.  Pydantic `model_dump` / `model_validate` are
modelled as explicit encode / decode functions over a JSON value type,
since the store holds plain dicts.  `uuid.uuid4()` is modelled as a
fresh-token supply driven by a counter carried in the store state.
-/

/-- Dynamic JSON-ish value, the type of the python dicts kept in the store. -/
inductive Json where
  | null : Json
  | bool : Bool → Json
  | str : String → Json
  | num : Int → Json
  | arr : List Json → Json
  | obj : List (String × Json) → Json

/-- First-match association-list lookup, the model of python `dict.get`. -/
def assocGet {α : Type} : List (String × α) → String → Option α
  | [], _ => none
  | (k, v) :: rest, key => if k = key then some v else assocGet rest key

def Json.asStr : Json → Option String
  | .str s => some s
  | _ => none

def Json.asBool : Json → Option Bool
  | .bool b => some b
  | _ => none

def Json.asArr : Json → Option (List Json)
  | .arr xs => some xs
  | _ => none

def Json.asObj : Json → Option (List (String × Json))
  | .obj fs => some fs
  | _ => none

/-- Elementwise traversal in the `Option` monad (pydantic list parsing). -/
def optionMapM {α β : Type} (f : α → Option β) : List α → Option (List β)
  | [] => some []
  | a :: as =>
    match f a, optionMapM f as with
    | some b, some bs => some (b :: bs)
    | _, _ => none

/-- `Entity` of `app/models/schemas.py`. -/
structure Entity where
  name : String
  description : String
deriving DecidableEq

/-- The `Literal` cardinality tag of `Relationship.type`. -/
inductive RelType where
  | one_to_one : RelType
  | one_to_many : RelType
  | many_to_many : RelType
deriving DecidableEq

def relTypeToString : RelType → String
  | .one_to_one => "one-to-one"
  | .one_to_many => "one-to-many"
  | .many_to_many => "many-to-many"

def relTypeOfString : String → Option RelType
  | "one-to-one" => some .one_to_one
  | "one-to-many" => some .one_to_many
  | "many-to-many" => some .many_to_many
  | _ => none

/-- `Relationship` of `app/models/schemas.py`; the `from` alias of
`from_entity` is handled in the decoder (`populate_by_name = True`).
The source field `to` is spelled `to_entity` here because `to` is a Lean
keyword; its dict key stays `"to"` in the encoder and decoder. -/
structure Relationship where
  from_entity : String
  to_entity : String
  type : RelType
  through : Option String := none
deriving DecidableEq

/-- `RequirementsOutput` of `app/models/schemas.py`. -/
structure RequirementsOutput where
  entities : List Entity
  relationships : List Relationship
  assumptions : List String
  out_of_scope : List String
deriving DecidableEq

/-- `Column` of `app/models/schemas.py`. -/
structure Column where
  name : String
  type : String
  constraints : List String := []
deriving DecidableEq

/-- `Table` of `app/models/schemas.py`. -/
structure Table where
  name : String
  columns : List Column
deriving DecidableEq

/-- `DatabaseDesignOutput` of `app/models/schemas.py`. -/
structure DatabaseDesignOutput where
  tables : List Table
  normalization_level : String := "3NF"
  design_rationale : List String
  sql_schema : String
deriving DecidableEq

/-- The `Literal` risk tag of `ReviewOutput.risk_level`. -/
inductive RiskLevel where
  | LOW : RiskLevel
  | MEDIUM : RiskLevel
  | HIGH : RiskLevel
deriving DecidableEq

def riskLevelToString : RiskLevel → String
  | .LOW => "LOW"
  | .MEDIUM => "MEDIUM"
  | .HIGH => "HIGH"

def riskLevelOfString : String → Option RiskLevel
  | "LOW" => some .LOW
  | "MEDIUM" => some .MEDIUM
  | "HIGH" => some .HIGH
  | _ => none

/-- `ReviewOutput` of `app/models/schemas.py`. -/
structure ReviewOutput where
  assessment : String
  issues : List String := []
  risk_level : RiskLevel
  approval_required : Bool
deriving DecidableEq

/-- `RepoFile` of `app/models/schemas.py`. -/
structure RepoFile where
  path : String
  content : String
deriving DecidableEq

/-- `GitStrategyOutput` of `app/models/schemas.py`. -/
structure GitStrategyOutput where
  branch_name : String
  base_branch : String := "main"
  repository_structure : List String
  action : String
  files : List RepoFile := []
deriving DecidableEq

/-- `ApprovalResponse` of `app/models/schemas.py`. -/
structure ApprovalResponse where
  approved : Bool
  comments : Option String := none
  approved_by : Option String := none
deriving DecidableEq

/-- `ApprovalDecision` dataclass of `app/utils/approval_store.py`. -/
structure ApprovalDecision where
  approved : Bool
  comments : Option String := none
  approved_by : Option String := none
deriving DecidableEq

def encodeEntity (e : Entity) : Json :=
  .obj [("name", .str e.name), ("description", .str e.description)]

def decodeEntity (j : Json) : Option Entity := do
  let fs ← j.asObj
  let nameJ ← assocGet fs "name"
  let name ← nameJ.asStr
  let descJ ← assocGet fs "description"
  let desc ← descJ.asStr
  pure ⟨name, desc⟩

def encodeOptStr : Option String → Json
  | none => .null
  | some s => .str s

def encodeRelationship (r : Relationship) : Json :=
  .obj [("from_entity", .str r.from_entity), ("to", .str r.to_entity),
        ("type", .str (relTypeToString r.type)),
        ("through", encodeOptStr r.through)]

def decodeRelationship (j : Json) : Option Relationship := do
  let fs ← j.asObj
  let fromJ ←
    match assocGet fs "from" with
    | some v => some v
    | none => assocGet fs "from_entity"
  let from_entity ← fromJ.asStr
  let toJ ← assocGet fs "to"
  let toV ← toJ.asStr
  let tyJ ← assocGet fs "type"
  let tyS ← tyJ.asStr
  let ty ← relTypeOfString tyS
  let through ←
    match assocGet fs "through" with
    | none => some none
    | some .null => some none
    | some (.str s) => some (some s)
    | some _ => none
  pure ⟨from_entity, toV, ty, through⟩

def encodeRequirements (r : RequirementsOutput) : Json :=
  .obj [("entities", .arr (r.entities.map encodeEntity)),
        ("relationships", .arr (r.relationships.map encodeRelationship)),
        ("assumptions", .arr (r.assumptions.map Json.str)),
        ("out_of_scope", .arr (r.out_of_scope.map Json.str))]

def decodeRequirements (j : Json) : Option RequirementsOutput := do
  let fs ← j.asObj
  let entsJ ← assocGet fs "entities"
  let ents ← entsJ.asArr
  let entities ← optionMapM decodeEntity ents
  let relsJ ← assocGet fs "relationships"
  let rels ← relsJ.asArr
  let relationships ← optionMapM decodeRelationship rels
  let asmJ ← assocGet fs "assumptions"
  let asms ← asmJ.asArr
  let assumptions ← optionMapM Json.asStr asms
  let oosJ ← assocGet fs "out_of_scope"
  let ooss ← oosJ.asArr
  let out_of_scope ← optionMapM Json.asStr ooss
  pure ⟨entities, relationships, assumptions, out_of_scope⟩

def encodeColumn (c : Column) : Json :=
  .obj [("name", .str c.name), ("type", .str c.type),
        ("constraints", .arr (c.constraints.map Json.str))]

def decodeColumn (j : Json) : Option Column := do
  let fs ← j.asObj
  let nameJ ← assocGet fs "name"
  let name ← nameJ.asStr
  let tyJ ← assocGet fs "type"
  let ty ← tyJ.asStr
  let constraints ←
    match assocGet fs "constraints" with
    | none => some []
    | some v => do
      let xs ← v.asArr
      optionMapM Json.asStr xs
  pure ⟨name, ty, constraints⟩

def encodeTable (t : Table) : Json :=
  .obj [("name", .str t.name), ("columns", .arr (t.columns.map encodeColumn))]

def decodeTable (j : Json) : Option Table := do
  let fs ← j.asObj
  let nameJ ← assocGet fs "name"
  let name ← nameJ.asStr
  let colsJ ← assocGet fs "columns"
  let cols ← colsJ.asArr
  let columns ← optionMapM decodeColumn cols
  pure ⟨name, columns⟩

def encodeDbDesign (d : DatabaseDesignOutput) : Json :=
  .obj [("tables", .arr (d.tables.map encodeTable)),
        ("normalization_level", .str d.normalization_level),
        ("design_rationale", .arr (d.design_rationale.map Json.str)),
        ("sql_schema", .str d.sql_schema)]

def decodeDbDesign (j : Json) : Option DatabaseDesignOutput := do
  let fs ← j.asObj
  let tablesJ ← assocGet fs "tables"
  let tablesA ← tablesJ.asArr
  let tables ← optionMapM decodeTable tablesA
  let normalization_level ←
    match assocGet fs "normalization_level" with
    | none => some "3NF"
    | some v => v.asStr
  let ratJ ← assocGet fs "design_rationale"
  let ratA ← ratJ.asArr
  let design_rationale ← optionMapM Json.asStr ratA
  let sqlJ ← assocGet fs "sql_schema"
  let sql_schema ← sqlJ.asStr
  pure ⟨tables, normalization_level, design_rationale, sql_schema⟩

def encodeReview (r : ReviewOutput) : Json :=
  .obj [("assessment", .str r.assessment),
        ("issues", .arr (r.issues.map Json.str)),
        ("risk_level", .str (riskLevelToString r.risk_level)),
        ("approval_required", .bool r.approval_required)]

def decodeReview (j : Json) : Option ReviewOutput := do
  let fs ← j.asObj
  let asJ ← assocGet fs "assessment"
  let assessment ← asJ.asStr
  let issues ←
    match assocGet fs "issues" with
    | none => some []
    | some v => do
      let xs ← v.asArr
      optionMapM Json.asStr xs
  let rlJ ← assocGet fs "risk_level"
  let rlS ← rlJ.asStr
  let risk_level ← riskLevelOfString rlS
  let arJ ← assocGet fs "approval_required"
  let approval_required ← arJ.asBool
  pure ⟨assessment, issues, risk_level, approval_required⟩

theorem optionMapM_map_id {α β : Type} (f : α → Option β) (g : β → α)
    (h : ∀ b, f (g b) = some b) :
    ∀ l : List β, optionMapM f (l.map g) = some l := by
  intro l
  induction l with
  | nil => rfl
  | cons b bs ih => simp [optionMapM, h, ih]

theorem decodeEntity_encodeEntity (e : Entity) :
    decodeEntity (encodeEntity e) = some e := rfl

theorem relTypeOfString_relTypeToString (t : RelType) :
    relTypeOfString (relTypeToString t) = some t := by
  cases t <;> rfl

theorem riskLevelOfString_riskLevelToString (r : RiskLevel) :
    riskLevelOfString (riskLevelToString r) = some r := by
  cases r <;> rfl

theorem decodeRelationship_encodeRelationship (r : Relationship) :
    decodeRelationship (encodeRelationship r) = some r := by
  cases r with
  | mk f t ty th => cases ty <;> cases th <;> rfl

theorem decodeRequirements_encodeRequirements (r : RequirementsOutput) :
    decodeRequirements (encodeRequirements r) = some r := by
  cases r with
  | mk es rs as os =>
    simp [decodeRequirements, encodeRequirements, Json.asObj, assocGet,
      Json.asArr,
      optionMapM_map_id decodeEntity encodeEntity decodeEntity_encodeEntity,
      optionMapM_map_id decodeRelationship encodeRelationship
        decodeRelationship_encodeRelationship,
      optionMapM_map_id Json.asStr Json.str (fun _ => rfl)]

theorem decodeColumn_encodeColumn (c : Column) :
    decodeColumn (encodeColumn c) = some c := by
  cases c with
  | mk n t cs =>
    simp [decodeColumn, encodeColumn, Json.asObj, assocGet, Json.asStr,
      Json.asArr, optionMapM_map_id Json.asStr Json.str (fun _ => rfl)]

theorem decodeTable_encodeTable (t : Table) :
    decodeTable (encodeTable t) = some t := by
  cases t with
  | mk n cs =>
    simp [decodeTable, encodeTable, Json.asObj, assocGet, Json.asStr,
      Json.asArr,
      optionMapM_map_id decodeColumn encodeColumn decodeColumn_encodeColumn]

theorem decodeDbDesign_encodeDbDesign (d : DatabaseDesignOutput) :
    decodeDbDesign (encodeDbDesign d) = some d := by
  cases d with
  | mk ts nl dr sq =>
    simp [decodeDbDesign, encodeDbDesign, Json.asObj, assocGet, Json.asStr,
      Json.asArr,
      optionMapM_map_id decodeTable encodeTable decodeTable_encodeTable,
      optionMapM_map_id Json.asStr Json.str (fun _ => rfl)]

theorem decodeReview_encodeReview (r : ReviewOutput) :
    decodeReview (encodeReview r) = some r := by
  cases r with
  | mk a i rl ar =>
    simp [decodeReview, encodeReview, Json.asObj, assocGet, Json.asStr,
      Json.asArr, Json.asBool, riskLevelOfString_riskLevelToString,
      optionMapM_map_id Json.asStr Json.str (fun _ => rfl)]

/-- `PendingApprovalState` dataclass of `app/utils/approval_store.py`;
`requirements`, `database_design` and `review` are the serialized dicts. -/
structure PendingApprovalState where
  approval_token : String
  user_prompt : String
  requirements : Json
  database_design : Json
  review : Json
  language : Option String := none
  decision : Option ApprovalDecision := none

/-- The two module-level dicts `_pending_states` and `_approval_decisions`
of `app/utils/approval_store.py`, plus a counter driving the fresh-token
supply that models `uuid.uuid4()`. -/
structure Store where
  pending : String → Option PendingApprovalState
  decisions : String → Option ApprovalDecision
  counter : Nat

/-- Fresh-token supply modelling `str(uuid.uuid4())`: the n-th token issued
by the process. -/
def tokenOfNat (n : Nat) : String := "token-" ++ toString n

def emptyStore : Store := ⟨fun _ => none, fun _ => none, 0⟩

/-- Well-formedness of the fresh-token supply: tokens not yet issued are
unmapped, which is what uuid uniqueness provides in the source. -/
def storeWF (s : Store) : Prop :=
  ∀ k, s.counter ≤ k → s.pending (tokenOfNat k) = none

/-- `create_pending_approval` of `app/utils/approval_store.py`. -/
def create_pending_approval (user_prompt : String)
    (requirements database_design review : Json) (language : Option String)
    (s : Store) : String × Store :=
  let token := tokenOfNat s.counter
  let state : PendingApprovalState :=
    ⟨token, user_prompt, requirements, database_design, review, language, none⟩
  (token,
   { pending := fun t => if t = token then some state else s.pending t,
     decisions := s.decisions,
     counter := s.counter + 1 })

/-- `get_pending_state` of `app/utils/approval_store.py`. -/
def get_pending_state (approval_token : String) (s : Store) :
    Option PendingApprovalState :=
  s.pending approval_token

/-- `submit_approval` of `app/utils/approval_store.py`: records the decision
both on the pending state and in the `_approval_decisions` dict. -/
def submit_approval (approval_token : String) (approved : Bool)
    (comments approved_by : Option String) (s : Store) :
    (Bool × String) × Store :=
  match s.pending approval_token with
  | none => ((false, "Invalid or expired approval token"), s)
  | some state =>
    let d : ApprovalDecision := ⟨approved, comments, approved_by⟩
    ((true,
      "Approval recorded. Call POST /orchestrate/continue with this token to continue."),
     { pending := fun t =>
         if t = approval_token then some { state with decision := some d }
         else s.pending t,
       decisions := fun t =>
         if t = approval_token then some d else s.decisions t,
       counter := s.counter })

/-- `get_approval_decision` of `app/utils/approval_store.py`: prefers the
decision attached to the pending state, falling back to the decisions dict. -/
def get_approval_decision (approval_token : String) (s : Store) :
    Option ApprovalDecision :=
  match s.pending approval_token with
  | some state =>
    match state.decision with
    | some d => some d
    | none => s.decisions approval_token
  | none => s.decisions approval_token

/-- `consume_pending_state` of `app/utils/approval_store.py`:
`_pending_states.pop(approval_token, None)` — only the pending dict is
touched. -/
def consume_pending_state (approval_token : String) (s : Store) :
    Option PendingApprovalState × Store :=
  (s.pending approval_token,
   { pending := fun t => if t = approval_token then none else s.pending t,
     decisions := s.decisions,
     counter := s.counter })

/-- ASCII case folding, modelling python `str.lower()` on the language tag. -/
def pyLower (s : String) : String := String.mk (s.data.map Char.toLower)

/-- Python `language or "python"`: `None` and the empty string are falsy. -/
def pyOrDefault (language : Option String) (d : String) : String :=
  match language with
  | none => d
  | some s => if s = "" then d else s

/-- Python `a or b` on optional strings (empty string is falsy). -/
def pyOrOpt (a b : Option String) : Option String :=
  match a with
  | none => b
  | some s => if s = "" then b else a

/-- The `framework_map` literal of `_run_git_and_finish` in
`app/orchestrator/orchestrator.py`. -/
def framework_map : List (String × String) :=
  [("python", "fastapi"), ("node", "express"), ("nodejs", "express"),
   ("java", "spring-boot"), ("go", "gin")]

/-- The language-to-framework mapping of `_run_git_and_finish`:
`framework_map.get(lang, "fastapi" if lang == "python" else lang)` applied
to `lang = (language or "python").lower()`. -/
def languageToFramework (language : Option String) : String :=
  let lang := pyLower (pyOrDefault language "python")
  match assocGet framework_map lang with
  | some f => f
  | none => if lang = "python" then "fastapi" else lang

/-- The `dict` argument of `validate_db_design`, restricted to the shapes a
Schema-Design dump can take with keys possibly missing: `none` models an
absent key. -/
structure ColumnDict where
  name : Option String := none
  type : Option String := none

/-- A table entry of the `tables` value handed to `validate_db_design`. -/
structure TableDict where
  name : Option String := none
  columns : Option (List ColumnDict) := none

/-- The top-level dict handed to `validate_db_design`; each field is `none`
when the corresponding required key is missing. -/
structure DbDesignDict where
  tables : Option (List TableDict) := none
  normalization_level : Option String := none
  design_rationale : Option (List String) := none
  sql_schema : Option String := none

/-- The dict returned by `validate_db_design` (`is_valid` + `issues`),
also the shape of the `ValidationResult` pydantic model. -/
structure ValidationResult where
  is_valid : Bool
  issues : List String
deriving DecidableEq

/-- Python truthiness of `dict.get(key)` for a string-valued key: falsy when
the key is absent or the value is the empty string. -/
def strOptFalsy : Option String → Bool
  | none => true
  | some s => s = ""

/-- Python truthiness of `dict.get(key)` for a list-valued key: falsy when
the key is absent or the list is empty. -/
def listOptFalsy {α : Type} : Option (List α) → Bool
  | none => true
  | some l => l.isEmpty

/-- Rendering of `table.get("name")` inside an f-string: a missing key reads
as the string `None`. -/
def pyStrOrNone : Option String → String
  | none => "None"
  | some s => s

/-- One iteration of the `for key in required_keys` loop of
`validate_db_design`: the issue emitted when `key not in db_design`. -/
def keyIssue (missing : Bool) (key : String) : List String :=
  if missing then ["Missing required key: " ++ key] else []

/-- The `Missing required key` block of `validate_db_design`, in the order
of the `required_keys` list. -/
def missingKeyIssues (d : DbDesignDict) : List String :=
  keyIssue d.tables.isNone "tables"
    ++ keyIssue d.normalization_level.isNone "normalization_level"
    ++ keyIssue d.design_rationale.isNone "design_rationale"
    ++ keyIssue d.sql_schema.isNone "sql_schema"

/-- The normalization-level check of `validate_db_design`. -/
def normBlock (d : DbDesignDict) : List String :=
  if d.normalization_level = some "3NF" then []
  else ["Schema is not explicitly marked as 3NF"]

/-- The per-column checks of `validate_db_design` for column index `j`
(issues use `j+1`); `\x27` is the apostrophe of the source f-strings. -/
def columnIssues (tableName : Option String) (j : Nat) (c : ColumnDict) :
    List String :=
  (if strOptFalsy c.name then
     ["Column " ++ (toString (j + 1) ++ (" in table \x27"
        ++ (pyStrOrNone tableName ++ "\x27 is missing a name")))]
   else [])
    ++ (if strOptFalsy c.type then
          ["Column \x27" ++ ((match c.name with
              | some n => n
              | none => toString (j + 1)) ++ ("\x27 in table \x27"
              ++ (pyStrOrNone tableName ++ "\x27 is missing a type")))]
        else [])

def columnIssuesFrom (tableName : Option String) :
    Nat → List ColumnDict → List String
  | _, [] => []
  | j, c :: cs => columnIssues tableName j c ++ columnIssuesFrom tableName (j + 1) cs

/-- The per-table checks of `validate_db_design` for table index `i`. -/
def tableIssues (i : Nat) (t : TableDict) : List String :=
  (if strOptFalsy t.name then
     ["Table " ++ (toString (i + 1) ++ " is missing a name")] else [])
    ++ (if listOptFalsy t.columns then
          ["Table \x27" ++ ((match t.name with
              | some n => n
              | none => toString (i + 1)) ++ "\x27 has no columns defined")]
        else columnIssuesFrom t.name 0 (t.columns.getD []))

def tableIssuesFrom : Nat → List TableDict → List String
  | _, [] => []
  | i, t :: ts => tableIssues i t ++ tableIssuesFrom (i + 1) ts

/-- The tables block of `validate_db_design`: `if not db_design.get("tables")`
fires on an absent key or an empty list, else each table is checked. -/
def tablesBlock (d : DbDesignDict) : List String :=
  if listOptFalsy d.tables then ["No tables defined"]
  else tableIssuesFrom 0 (d.tables.getD [])

/-- The whitespace set of python `str.strip()`. -/
def pyIsSpace (c : Char) : Bool :=
  c = ' ' || c = '\t' || c = '\n' || c = '\r' || c = '\x0b' || c = '\x0c'

/-- Python `str.strip()`: drop leading and trailing whitespace. -/
def pyStrip (s : String) : String :=
  String.mk (((s.data.dropWhile pyIsSpace).reverse.dropWhile pyIsSpace).reverse)

/-- The SQL-schema check of `validate_db_design`. -/
def sqlBlock (d : DbDesignDict) : List String :=
  if strOptFalsy d.sql_schema || (pyStrip (d.sql_schema.getD "") = "") then
    ["SQL schema is empty"]
  else []

/-- `validate_db_design` of `app/skills/validation_skill.py`: issue blocks in
source order, `is_valid` iff no issue was collected. -/
def validate_db_design (d : DbDesignDict) : ValidationResult :=
  let issues := missingKeyIssues d ++ normBlock d ++ tablesBlock d ++ sqlBlock d
  ⟨issues.isEmpty, issues⟩

/-- `model_dump()` of a `DatabaseDesignOutput`, as seen by the validator:
every required key present. -/
def dbDesignToDict (d : DatabaseDesignOutput) : DbDesignDict :=
  ⟨some (d.tables.map fun t => ⟨some t.name, some (t.columns.map fun c =>
      ⟨some c.name, some c.type⟩)⟩),
   some d.normalization_level, some d.design_rationale, some d.sql_schema⟩

/-- `Status` literal of `OrchestrationResult.status`. -/
inductive Status where
  | SUCCESS : Status
  | FAILED : Status
  | HALTED : Status
  | PENDING_APPROVAL : Status
deriving DecidableEq

/-- The dict returned by `create_branch` of `app/skills/github_skill.py`;
the timestamp is supplied by the caller (it is `datetime.now` in the
source). -/
structure GitExec where
  repository : String
  branch : String
  base_branch : String
  status : String
  url : String
  timestamp : String
  simulated : Bool
deriving DecidableEq

/-- The `git` payload of a SUCCESS result:
`{"strategy": ..., "execution": ...}`. -/
structure GitInfo where
  strategy : GitStrategyOutput
  execution : GitExec
deriving DecidableEq

/-- `OrchestrationResult` of `app/models/schemas.py`. -/
structure OrchestrationResult where
  status : Status
  stage : Option String := none
  approval_token : Option String := none
  requirements : Option RequirementsOutput := none
  database_design : Option DatabaseDesignOutput := none
  review : Option ReviewOutput := none
  approval : Option ApprovalResponse := none
  git : Option GitInfo := none
  issues : Option (List String) := none
deriving DecidableEq

/-- The `project_context` dict built by `_run_git_and_finish`. -/
structure ProjectContext where
  type : String
  framework : String
  language : String
  description : String
deriving DecidableEq

/-- The external collaborators of the orchestrator: the four LLM-backed
stage functions (an exception is `.error` with `str(e)`) and the wall clock
read by the simulated `create_branch`. -/
structure StageOracles where
  interpret_requirements : String → Except String RequirementsOutput
  design_database : RequirementsOutput → Except String DatabaseDesignOutput
  review_database_design : DatabaseDesignOutput → Except String ReviewOutput
  propose_git_strategy : ProjectContext → Except String GitStrategyOutput
  now : String

/-- `create_branch` of `app/skills/github_skill.py` (simulated branch
creation), with the timestamp passed in. -/
def create_branch (repo_name branch_name base_branch timestamp : String) :
    GitExec :=
  ⟨repo_name, branch_name, base_branch, "created",
   "https://github.com/" ++ (repo_name ++ ("/tree/" ++ branch_name)),
   timestamp, true⟩

/-- The `project_context` dict assembled by `_run_git_and_finish`: the
lowercased (defaulted) language, its framework, and a description listing
the requirement entities. -/
def projectContextFor (requirements : RequirementsOutput)
    (language : Option String) : ProjectContext :=
  ⟨"backend", languageToFramework language,
   pyLower (pyOrDefault language "python"),
   "Backend with entities: "
     ++ String.intercalate ", " (requirements.entities.map Entity.name)⟩

/-- `_run_git_and_finish` of `app/orchestrator/orchestrator.py`. -/
def run_git_and_finish (O : StageOracles) (requirements : RequirementsOutput)
    (db_design : DatabaseDesignOutput) (review : ReviewOutput)
    (approval : Option ApprovalResponse) (language : Option String) :
    OrchestrationResult :=
  match O.propose_git_strategy (projectContextFor requirements language) with
  | .error e =>
    { status := .FAILED, stage := some "git_strategy",
      requirements := some requirements, database_design := some db_design,
      review := some review, approval := approval,
      issues := some ["Failed to propose git strategy: " ++ e] }
  | .ok git_strategy =>
    { status := .SUCCESS,
      requirements := some requirements, database_design := some db_design,
      review := some review, approval := approval,
      git := some ⟨git_strategy,
        create_branch "agentic-dev-platform" git_strategy.branch_name
          git_strategy.base_branch O.now⟩ }

/-- `run_orchestration` of `app/orchestrator/orchestrator.py`. -/
def run_orchestration (O : StageOracles) (user_prompt : String)
    (language : Option String) (s : Store) : OrchestrationResult × Store :=
  match O.interpret_requirements user_prompt with
  | .error e =>
    ({ status := .FAILED, stage := some "requirements",
       issues := some ["Failed to interpret requirements: " ++ e] }, s)
  | .ok requirements =>
    match O.design_database requirements with
    | .error e =>
      ({ status := .FAILED, stage := some "database_design",
         requirements := some requirements,
         issues := some ["Failed to design database: " ++ e] }, s)
    | .ok db_design =>
      if (validate_db_design (dbDesignToDict db_design)).is_valid = false then
        ({ status := .FAILED, stage := some "validation",
           requirements := some requirements,
           database_design := some db_design,
           issues := some (validate_db_design (dbDesignToDict db_design)).issues },
         s)
      else
        match O.review_database_design db_design with
        | .error e =>
          ({ status := .FAILED, stage := some "review",
             requirements := some requirements,
             database_design := some db_design,
             issues := some ["Failed to review design: " ++ e] }, s)
        | .ok review =>
          if review.approval_required then
            ({ status := .PENDING_APPROVAL, stage := some "approval",
               approval_token := some (create_pending_approval user_prompt
                 (encodeRequirements requirements) (encodeDbDesign db_design)
                 (encodeReview review) language s).1,
               requirements := some requirements,
               database_design := some db_design,
               review := some review },
             (create_pending_approval user_prompt
               (encodeRequirements requirements) (encodeDbDesign db_design)
               (encodeReview review) language s).2)
          else
            (run_git_and_finish O requirements db_design review none language, s)

/-- `run_orchestration_continue` of `app/orchestrator/orchestrator.py`.
`none` is an uncaught `model_validate` exception while rehydrating the
stored dicts (unreachable for states the orchestrator itself stored). -/
def run_orchestration_continue (O : StageOracles) (approval_token : String)
    (language : Option String) (s : Store) :
    Option (OrchestrationResult × Store) :=
  match get_pending_state approval_token s with
  | none =>
    some ({ status := .FAILED, stage := some "approval",
            issues := some ["Invalid or expired approval token"] }, s)
  | some state =>
    match get_approval_decision approval_token s with
    | none =>
      some ({ status := .FAILED, stage := some "approval",
              issues := some
                ["No approval decision recorded. Call POST /approval first."] },
            s)
    | some decision =>
      match decodeRequirements state.requirements,
          decodeDbDesign state.database_design, decodeReview state.review with
      | some requirements, some db_design, some review =>
        let approval : ApprovalResponse :=
          ⟨decision.approved, decision.comments, decision.approved_by⟩
        if decision.approved = false then
          some ({ status := .HALTED, stage := some "approval",
                  requirements := some requirements,
                  database_design := some db_design,
                  review := some review, approval := some approval,
                  issues := some ["Design rejected by reviewer"] },
                (consume_pending_state approval_token s).2)
        else
          let lang := pyOrOpt language (pyOrOpt state.language (some "python"))
          let result := run_git_and_finish O requirements db_design review
            (some approval) lang
          some (result, (consume_pending_state approval_token s).2)
      | _, _, _ => none

/-- Occurrence count of a string in a list (used to state that the
validator emits exactly one issue per missing key). -/
def countOcc (a : String) : List String → Nat
  | [] => 0
  | b :: bs => (if b = a then 1 else 0) + countOcc a bs

theorem countOcc_append (a : String) (l1 l2 : List String) :
    countOcc a (l1 ++ l2) = countOcc a l1 + countOcc a l2 := by
  induction l1 with
  | nil => simp [countOcc]
  | cons b bs ih => simp [countOcc, ih]; omega

theorem countOcc_eq_zero (a : String) (l : List String)
    (h : ∀ s ∈ l, s ≠ a) : countOcc a l = 0 := by
  induction l with
  | nil => rfl
  | cons b bs ih =>
    simp [countOcc, h b (by simp)]
    exact ih fun s hs => h s (by simp [hs])

theorem ne_of_head_ne (s a : String) (c : Char)
    (hs : s.data.head? = some c) (ha : a.data.head? ≠ some c) : s ≠ a :=
  fun h => ha (h ▸ hs)

theorem countOcc_keyIssue (a k : String) (b : Bool) :
    countOcc a (keyIssue b k) =
      if b = true ∧ ("Missing required key: " ++ k) = a then 1 else 0 := by
  cases b <;> simp [keyIssue, countOcc]

theorem mem_keyIssue (a k : String) (b : Bool) :
    a ∈ keyIssue b k ↔ b = true ∧ a = "Missing required key: " ++ k := by
  cases b <;> simp [keyIssue]

theorem mem_missingKeyIssues_head (d : DbDesignDict) (s : String)
    (hs : s ∈ missingKeyIssues d) : s.data.head? = some 'M' := by
  simp only [missingKeyIssues, List.mem_append, mem_keyIssue] at hs
  rcases hs with ((⟨_, h⟩ | ⟨_, h⟩) | ⟨_, h⟩) | ⟨_, h⟩ <;> subst h <;> rfl

theorem mem_columnIssues_head (tn : Option String) (j : Nat) (c : ColumnDict)
    (s : String) (hs : s ∈ columnIssues tn j c) : s.data.head? = some 'C' := by
  unfold columnIssues at hs
  rcases List.mem_append.mp hs with h | h <;>
    (split at h <;>
      first
      | exact absurd h (List.not_mem_nil s)
      | (simp only [List.mem_singleton] at h; subst h; rfl))

theorem mem_columnIssuesFrom_head (tn : Option String) (s : String) :
    ∀ cs j, s ∈ columnIssuesFrom tn j cs → s.data.head? = some 'C' := by
  intro cs
  induction cs with
  | nil => intro j h; exact absurd h (List.not_mem_nil s)
  | cons c rest ih =>
    intro j h
    rcases List.mem_append.mp h with h | h
    · exact mem_columnIssues_head tn j c s h
    · exact ih (j + 1) h

theorem mem_tableIssues_head (i : Nat) (t : TableDict) (s : String)
    (hs : s ∈ tableIssues i t) :
    s.data.head? = some 'T' ∨ s.data.head? = some 'C' := by
  unfold tableIssues at hs
  rcases List.mem_append.mp hs with h | h
  · split at h
    · simp only [List.mem_singleton] at h; subst h; left; rfl
    · exact absurd h (List.not_mem_nil s)
  · split at h
    · simp only [List.mem_singleton] at h; subst h; left; rfl
    · exact Or.inr (mem_columnIssuesFrom_head t.name s _ 0 h)

theorem mem_tableIssuesFrom_head (s : String) :
    ∀ ts i, s ∈ tableIssuesFrom i ts →
      s.data.head? = some 'T' ∨ s.data.head? = some 'C' := by
  intro ts
  induction ts with
  | nil => intro i h; exact absurd h (List.not_mem_nil s)
  | cons t rest ih =>
    intro i h
    rcases List.mem_append.mp h with h | h
    · exact mem_tableIssues_head i t s h
    · exact ih (i + 1) h

theorem countOcc_normBlock (a : String) (d : DbDesignDict)
    (h : "Schema is not explicitly marked as 3NF" ≠ a) :
    countOcc a (normBlock d) = 0 := by
  unfold normBlock; split <;> simp [countOcc, h]

theorem countOcc_sqlBlock (a : String) (d : DbDesignDict)
    (h : "SQL schema is empty" ≠ a) : countOcc a (sqlBlock d) = 0 := by
  unfold sqlBlock; split <;> simp [countOcc, h]

theorem countOcc_tablesBlock (a : String) (d : DbDesignDict)
    (hN : "No tables defined" ≠ a) (hT : a.data.head? ≠ some 'T')
    (hC : a.data.head? ≠ some 'C') : countOcc a (tablesBlock d) = 0 := by
  unfold tablesBlock
  split
  · simp [countOcc, hN]
  · exact countOcc_eq_zero a _ fun s hs =>
      (mem_tableIssuesFrom_head s _ 0 hs).elim
        (fun h => ne_of_head_ne s a 'T' h hT)
        (fun h => ne_of_head_ne s a 'C' h hC)

theorem countOcc_validate_missing (d : DbDesignDict) (k : String)
    (hk : k ∈ ["tables", "normalization_level", "design_rationale",
               "sql_schema"]) :
    countOcc ("Missing required key: " ++ k) (validate_db_design d).issues =
      (if ("Missing required key: " ++ k) ∈ missingKeyIssues d then 1 else 0) := by
  have hhead : ("Missing required key: " ++ k).data.head? = some 'M' := rfl
  have hT : ("Missing required key: " ++ k).data.head? ≠ some 'T' := by
    rw [hhead]; decide
  have hC : ("Missing required key: " ++ k).data.head? ≠ some 'C' := by
    rw [hhead]; decide
  have hSch : "Schema is not explicitly marked as 3NF" ≠
      ("Missing required key: " ++ k) := by
    exact fun h => by
      have := congrArg (fun s => String.data s |>.head?) h
      simp only at this
      rw [hhead] at this
      exact absurd this (by decide)
  have hNo : "No tables defined" ≠ ("Missing required key: " ++ k) := by
    exact fun h => by
      have := congrArg (fun s => String.data s |>.head?) h
      simp only at this
      rw [hhead] at this
      exact absurd this (by decide)
  have hSql : "SQL schema is empty" ≠ ("Missing required key: " ++ k) := by
    exact fun h => by
      have := congrArg (fun s => String.data s |>.head?) h
      simp only at this
      rw [hhead] at this
      exact absurd this (by decide)
  simp only [validate_db_design, countOcc_append,
    countOcc_normBlock _ d hSch, countOcc_sqlBlock _ d hSql,
    countOcc_tablesBlock _ d hNo hT hC, Nat.add_zero]
  simp only [missingKeyIssues, countOcc_append, countOcc_keyIssue,
    List.mem_append, mem_keyIssue]
  fin_cases hk <;> by_cases h1 : d.tables.isNone <;>
    by_cases h2 : d.normalization_level.isNone <;>
    by_cases h3 : d.design_rationale.isNone <;>
    by_cases h4 : d.sql_schema.isNone <;>
    simp [h1, h2, h3, h4]

theorem notMem_missingKeyIssues (a : String) (d : DbDesignDict)
    (ha : a.data.head? ≠ some 'M') : a ∉ missingKeyIssues d :=
  fun h => ha (mem_missingKeyIssues_head d a h)

theorem notMem_tablesBlock (a : String) (d : DbDesignDict)
    (hN : a ≠ "No tables defined") (hT : a.data.head? ≠ some 'T')
    (hC : a.data.head? ≠ some 'C') : a ∉ tablesBlock d := by
  intro h
  unfold tablesBlock at h
  split at h
  · simp only [List.mem_singleton] at h; exact hN h
  · exact (mem_tableIssuesFrom_head a _ 0 h).elim hT hC

theorem mem_normBlock (a : String) (d : DbDesignDict) :
    a ∈ normBlock d ↔
      ¬ d.normalization_level = some "3NF"
        ∧ a = "Schema is not explicitly marked as 3NF" := by
  unfold normBlock; split <;> simp_all

theorem mem_sqlBlock (a : String) (d : DbDesignDict) :
    a ∈ sqlBlock d ↔
      (strOptFalsy d.sql_schema || (pyStrip (d.sql_schema.getD "") = "")) = true
        ∧ a = "SQL schema is empty" := by
  unfold sqlBlock; split <;> simp_all

theorem mem_tablesBlock_noTables (d : DbDesignDict) :
    "No tables defined" ∈ tablesBlock d ↔ listOptFalsy d.tables = true := by
  unfold tablesBlock
  split
  · simp_all
  · simp_all
    intro h
    exact absurd ((mem_tableIssuesFrom_head _ _ 0 h).imp
      (fun hh => Option.some.inj hh) (fun hh => Option.some.inj hh))
      (by decide)

theorem mem_missingKeyIssues_tables (d : DbDesignDict) :
    ("Missing required key: " ++ "tables") ∈ missingKeyIssues d ↔
      d.tables.isNone = true := by
  simp [missingKeyIssues, mem_keyIssue]

theorem mem_missingKeyIssues_norm (d : DbDesignDict) :
    ("Missing required key: " ++ "normalization_level") ∈ missingKeyIssues d ↔
      d.normalization_level.isNone = true := by
  simp [missingKeyIssues, mem_keyIssue]

theorem mem_missingKeyIssues_rationale (d : DbDesignDict) :
    ("Missing required key: " ++ "design_rationale") ∈ missingKeyIssues d ↔
      d.design_rationale.isNone = true := by
  simp [missingKeyIssues, mem_keyIssue]

theorem mem_missingKeyIssues_sql (d : DbDesignDict) :
    ("Missing required key: " ++ "sql_schema") ∈ missingKeyIssues d ↔
      d.sql_schema.isNone = true := by
  simp [missingKeyIssues, mem_keyIssue]
theorem mem_tableIssuesFrom_of_get :
    ∀ (ts : List TableDict) (i0 i : Nat) (hi : i < ts.length) (s : String),
      s ∈ tableIssues (i0 + i) (ts.get ⟨i, hi⟩) → s ∈ tableIssuesFrom i0 ts := by
  intro ts
  induction ts with
  | nil => intro i0 i hi; exact absurd hi (by simp)
  | cons t rest ih =>
    intro i0 i hi s hs
    cases i with
    | zero =>
      rw [Nat.add_zero] at hs
      exact List.mem_append.mpr (Or.inl hs)
    | succ j =>
      have harith : i0 + (j + 1) = (i0 + 1) + j := by omega
      rw [harith] at hs
      exact List.mem_append.mpr
        (Or.inr (ih (i0 + 1) j (Nat.lt_of_succ_lt_succ hi) s hs))

theorem mem_columnIssuesFrom_of_get (tn : Option String) :
    ∀ (cs : List ColumnDict) (j0 j : Nat) (hj : j < cs.length) (s : String),
      s ∈ columnIssues tn (j0 + j) (cs.get ⟨j, hj⟩) →
        s ∈ columnIssuesFrom tn j0 cs := by
  intro cs
  induction cs with
  | nil => intro j0 j hj; exact absurd hj (by simp)
  | cons c rest ih =>
    intro j0 j hj s hs
    cases j with
    | zero =>
      rw [Nat.add_zero] at hs
      exact List.mem_append.mpr (Or.inl hs)
    | succ k =>
      have harith : j0 + (k + 1) = (j0 + 1) + k := by omega
      rw [harith] at hs
      exact List.mem_append.mpr
        (Or.inr (ih (j0 + 1) k (Nat.lt_of_succ_lt_succ hj) s hs))

theorem mem_validate_of_mem_tableIssues (d : DbDesignDict)
    (ts : List TableDict) (hts : d.tables = some ts) (i : Nat)
    (hi : i < ts.length) (s : String)
    (hs : s ∈ tableIssues i (ts.get ⟨i, hi⟩)) :
    s ∈ (validate_db_design d).issues := by
  have hne : ts.isEmpty = false := by
    cases ts with
    | nil => exact absurd hi (by simp)
    | cons a l => rfl
  have hblock : tablesBlock d = tableIssuesFrom 0 ts := by
    unfold tablesBlock
    rw [hts]
    simp [listOptFalsy, hne]
  have hmem : s ∈ tableIssuesFrom 0 ts :=
    mem_tableIssuesFrom_of_get ts 0 i hi s (by simpa using hs)
  simp only [validate_db_design, List.mem_append]
  exact Or.inl (Or.inr (hblock ▸ hmem))

/-- C7: for every Schema-Design dict, `validate_db_design` emits exactly one
`Missing required key: <key>` issue per missing required field (so N of them
when N of the four fields are missing, forcing `is_valid = false` as soon as
one is missing), and it still collects — rather than replaces — the
independent issues for a wrong normalization tag, an empty or absent table
list, every malformed-table and malformed-column issue of every table
(`tableIssues` covers the per-table name/columns checks and, through
`columnIssues`, the per-column name/type checks), and empty or absent SQL
text; the final issue list holds nothing outside these four blocks, and as
a Lean function the validator is total. -/
theorem validate_db_design_missing_keys (d : DbDesignDict) :
    (countOcc ("Missing required key: " ++ "tables")
        (validate_db_design d).issues = if d.tables.isNone then 1 else 0)
    ∧ (countOcc ("Missing required key: " ++ "normalization_level")
        (validate_db_design d).issues
          = if d.normalization_level.isNone then 1 else 0)
    ∧ (countOcc ("Missing required key: " ++ "design_rationale")
        (validate_db_design d).issues
          = if d.design_rationale.isNone then 1 else 0)
    ∧ (countOcc ("Missing required key: " ++ "sql_schema")
        (validate_db_design d).issues = if d.sql_schema.isNone then 1 else 0)
    ∧ ((d.tables.isNone = true ∨ d.normalization_level.isNone = true
          ∨ d.design_rationale.isNone = true ∨ d.sql_schema.isNone = true) →
        (validate_db_design d).is_valid = false)
    ∧ ("Schema is not explicitly marked as 3NF" ∈ (validate_db_design d).issues
        ↔ ¬ d.normalization_level = some "3NF")
    ∧ ("No tables defined" ∈ (validate_db_design d).issues
        ↔ listOptFalsy d.tables = true)
    ∧ ("SQL schema is empty" ∈ (validate_db_design d).issues
        ↔ (strOptFalsy d.sql_schema
            || (pyStrip (d.sql_schema.getD "") = "")) = true)
    ∧ (∀ ts, d.tables = some ts → ∀ i, ∀ hi : i < ts.length, ∀ s,
        s ∈ tableIssues i (ts.get ⟨i, hi⟩) →
          s ∈ (validate_db_design d).issues)
    ∧ (∀ ts, d.tables = some ts → ∀ i, ∀ hi : i < ts.length,
        listOptFalsy (ts.get ⟨i, hi⟩).columns = false →
        ∀ j, ∀ hj : j < ((ts.get ⟨i, hi⟩).columns.getD []).length, ∀ s,
          s ∈ columnIssues (ts.get ⟨i, hi⟩).name j
              (((ts.get ⟨i, hi⟩).columns.getD []).get ⟨j, hj⟩) →
            s ∈ (validate_db_design d).issues)
    ∧ (∀ s, s ∈ (validate_db_design d).issues →
        s ∈ missingKeyIssues d ∨ s ∈ normBlock d ∨ s ∈ tablesBlock d
          ∨ s ∈ sqlBlock d) := by
  have h1 := countOcc_validate_missing d "tables" (by simp)
  have h2 := countOcc_validate_missing d "normalization_level" (by simp)
  have h3 := countOcc_validate_missing d "design_rationale" (by simp)
  have h4 := countOcc_validate_missing d "sql_schema" (by simp)
  simp only [mem_missingKeyIssues_tables] at h1
  simp only [mem_missingKeyIssues_norm] at h2
  simp only [mem_missingKeyIssues_rationale] at h3
  simp only [mem_missingKeyIssues_sql] at h4
  have hvalid : (validate_db_design d).is_valid
      = (validate_db_design d).issues.isEmpty := rfl
  refine ⟨h1, h2, h3, h4, ?_, ?_, ?_, ?_, ?_, ?_, ?_⟩
  · intro hmiss
    rw [hvalid]
    cases hei : (validate_db_design d).issues.isEmpty with
    | false => rfl
    | true =>
      exfalso
      have hnil : (validate_db_design d).issues = [] :=
        List.isEmpty_iff.mp hei
      rw [hnil] at h1 h2 h3 h4
      rcases hmiss with h | h | h | h
      · rw [h] at h1; exact absurd h1.symm (by simp [countOcc])
      · rw [h] at h2; exact absurd h2.symm (by simp [countOcc])
      · rw [h] at h3; exact absurd h3.symm (by simp [countOcc])
      · rw [h] at h4; exact absurd h4.symm (by simp [countOcc])
  · constructor
    · intro h
      simp only [validate_db_design, List.mem_append] at h
      rcases h with ((h | h) | h) | h
      · exact absurd h (notMem_missingKeyIssues _ d (by decide))
      · exact ((mem_normBlock _ d).mp h).1
      · exact absurd h (notMem_tablesBlock _ d (by decide) (by decide) (by decide))
      · exact absurd ((mem_sqlBlock _ d).mp h).2 (by decide)
    · intro h
      simp only [validate_db_design, List.mem_append]
      exact Or.inl (Or.inl (Or.inr ((mem_normBlock _ d).mpr ⟨h, rfl⟩)))
  · constructor
    · intro h
      simp only [validate_db_design, List.mem_append] at h
      rcases h with ((h | h) | h) | h
      · exact absurd h (notMem_missingKeyIssues _ d (by decide))
      · exact absurd ((mem_normBlock _ d).mp h).2 (by decide)
      · exact (mem_tablesBlock_noTables d).mp h
      · exact absurd ((mem_sqlBlock _ d).mp h).2 (by decide)
    · intro h
      simp only [validate_db_design, List.mem_append]
      exact Or.inl (Or.inr ((mem_tablesBlock_noTables d).mpr h))
  · constructor
    · intro h
      simp only [validate_db_design, List.mem_append] at h
      rcases h with ((h | h) | h) | h
      · exact absurd h (notMem_missingKeyIssues _ d (by decide))
      · exact absurd ((mem_normBlock _ d).mp h).2 (by decide)
      · exact absurd h (notMem_tablesBlock _ d (by decide) (by decide) (by decide))
      · exact ((mem_sqlBlock _ d).mp h).1
    · intro h
      simp only [validate_db_design, List.mem_append]
      exact Or.inr ((mem_sqlBlock _ d).mpr ⟨h, rfl⟩)
  · intro ts hts i hi s hs
    exact mem_validate_of_mem_tableIssues d ts hts i hi s hs
  · intro ts hts i hi hcols j hj s hs
    refine mem_validate_of_mem_tableIssues d ts hts i hi s ?_
    unfold tableIssues
    refine List.mem_append.mpr (Or.inr ?_)
    rw [if_neg (by simpa using hcols)]
    exact mem_columnIssuesFrom_of_get (ts.get ⟨i, hi⟩).name
      ((ts.get ⟨i, hi⟩).columns.getD []) 0 j hj s (by simpa using hs)
  · intro s hs
    simp only [validate_db_design, List.mem_append] at hs
    tauto

/-- Witness for C7 at a concrete dict missing only the `tables` key. -/
theorem validate_db_design_missing_keys_witness :
    (validate_db_design
        ⟨none, some "3NF", some ["r"], some "CREATE TABLE t"⟩).is_valid
      = false :=
  (validate_db_design_missing_keys
      ⟨none, some "3NF", some ["r"], some "CREATE TABLE t"⟩).2.2.2.2.1
    (Or.inl rfl)

/-- C8: a Schema-Design dict with all four required keys present,
`normalization_level = "2NF"`, an empty table list and SQL text that is
non-empty after trimming validates to `is_valid = false` with exactly the
two issues for the wrong normalization level and the missing tables. -/
theorem validate_db_design_2NF_no_tables (r : List String) (q : String)
    (hq : pyStrip q ≠ "") :
    validate_db_design ⟨some [], some "2NF", some r, some q⟩ =
      ⟨false, ["Schema is not explicitly marked as 3NF",
               "No tables defined"]⟩ := by
  have hq0 : q ≠ "" := fun h => hq (by rw [h]; rfl)
  simp [validate_db_design, missingKeyIssues, keyIssue, normBlock,
    tablesBlock, sqlBlock, listOptFalsy, strOptFalsy, hq, hq0]

/-- Witness for C8 at a concrete SQL string. -/
theorem validate_db_design_2NF_no_tables_witness :
    validate_db_design ⟨some [], some "2NF", some ["r"],
        some "CREATE TABLE t"⟩ =
      ⟨false, ["Schema is not explicitly marked as 3NF",
               "No tables defined"]⟩ :=
  validate_db_design_2NF_no_tables ["r"] "CREATE TABLE t" (by decide)

/-- C9: creating a pending approval from the serialized artifacts, looking
the state up by the returned token and deserializing its three dicts gives
back exactly the original Requirements, Schema-Design and Risk-Review
values, with the prompt and language captured alongside. -/
theorem pending_state_roundtrip (prompt : String) (req : RequirementsOutput)
    (dbd : DatabaseDesignOutput) (rev : ReviewOutput) (lang : Option String)
    (s : Store) :
    ∃ st : PendingApprovalState,
      get_pending_state
          (create_pending_approval prompt (encodeRequirements req)
            (encodeDbDesign dbd) (encodeReview rev) lang s).1
          (create_pending_approval prompt (encodeRequirements req)
            (encodeDbDesign dbd) (encodeReview rev) lang s).2 = some st
        ∧ decodeRequirements st.requirements = some req
        ∧ decodeDbDesign st.database_design = some dbd
        ∧ decodeReview st.review = some rev
        ∧ st.user_prompt = prompt
        ∧ st.language = lang
        ∧ st.decision = none := by
  refine ⟨⟨tokenOfNat s.counter, prompt, encodeRequirements req,
      encodeDbDesign dbd, encodeReview rev, lang, none⟩, ?_,
    decodeRequirements_encodeRequirements req,
    decodeDbDesign_encodeDbDesign dbd, decodeReview_encodeReview rev,
    rfl, rfl, rfl⟩
  simp [get_pending_state, create_pending_approval]

/-- C2 counterexample: create a pending approval, record an approval
decision, then consume the state.  Consumption succeeds and a later `get`
is absent, yet `get_approval_decision` still returns the recorded decision
(consume pops only the pending dict, never the decisions dict), so the
claim that `get_decision` is absent after a successful consume is false. -/
theorem consume_decision_survives_counterexample :
    ((consume_pending_state (tokenOfNat 0)
        (submit_approval (tokenOfNat 0) true none none
          (create_pending_approval "p" (Json.obj []) (Json.obj [])
            (Json.obj []) (some "python") emptyStore).2).2).1).isSome = true
    ∧ get_pending_state (tokenOfNat 0)
        (consume_pending_state (tokenOfNat 0)
          (submit_approval (tokenOfNat 0) true none none
            (create_pending_approval "p" (Json.obj []) (Json.obj [])
              (Json.obj []) (some "python") emptyStore).2).2).2 = none
    ∧ get_approval_decision (tokenOfNat 0)
        (consume_pending_state (tokenOfNat 0)
          (submit_approval (tokenOfNat 0) true none none
            (create_pending_approval "p" (Json.obj []) (Json.obj [])
              (Json.obj []) (some "python") emptyStore).2).2).2
        = some ⟨true, none, none⟩ :=
  ⟨rfl, rfl, rfl⟩

/-- C2 amended: after `consume(token)` a subsequent `get(token)` returns
absent, and `get_decision(token)` returns absent provided no decision had
been recorded in the decisions dict for that token; a decision recorded
before consumption survives it. -/
theorem consume_once_amended (tok : String) (s : Store)
    (hd : s.decisions tok = none) :
    get_pending_state tok (consume_pending_state tok s).2 = none
    ∧ get_approval_decision tok (consume_pending_state tok s).2 = none := by
  constructor
  · simp [get_pending_state, consume_pending_state]
  · simp [get_approval_decision, consume_pending_state, hd]

/-- Witness for the amended C2 at the empty store. -/
theorem consume_once_amended_witness :
    get_pending_state (tokenOfNat 0)
        (consume_pending_state (tokenOfNat 0) emptyStore).2 = none
    ∧ get_approval_decision (tokenOfNat 0)
        (consume_pending_state (tokenOfNat 0) emptyStore).2 = none :=
  consume_once_amended (tokenOfNat 0) emptyStore rfl

/-- C6 counterexample: `ruby` and `rust` are both unrecognized by the
lookup table, yet they map to two different framework labels (each maps to
itself), so unrecognized languages do not fall back to one generic default
framework label. -/
theorem languageToFramework_no_single_default :
    assocGet framework_map (pyLower "ruby") = none
    ∧ assocGet framework_map (pyLower "rust") = none
    ∧ languageToFramework (some "ruby") = "ruby"
    ∧ languageToFramework (some "rust") = "rust"
    ∧ ¬ ∃ d : String, ∀ lang : String,
        assocGet framework_map (pyLower lang) = none →
          languageToFramework (some lang) = d := by
  refine ⟨rfl, rfl, rfl, rfl, ?_⟩
  rintro ⟨d, h⟩
  have h1 : languageToFramework (some "ruby") = d := h "ruby" rfl
  have h2 : languageToFramework (some "rust") = d := h "rust" rfl
  have e1 : languageToFramework (some "ruby") = "ruby" := rfl
  have e2 : languageToFramework (some "rust") = "rust" := rfl
  rw [e1] at h1
  rw [e2] at h2
  rw [← h2] at h1
  exact absurd h1 (by decide)

/-- C6 amended: the mapping used by the finalization routine is a pure
total function; `None` or empty language defaults to python and recognized
languages map through the fixed table (case-insensitively), but every
unrecognized language string falls back to its own lowercased language
string rather than to one generic default label. -/
theorem languageToFramework_amended :
    languageToFramework none = "fastapi"
    ∧ languageToFramework (some "") = "fastapi"
    ∧ languageToFramework (some "python") = "fastapi"
    ∧ languageToFramework (some "Python") = "fastapi"
    ∧ languageToFramework (some "node") = "express"
    ∧ languageToFramework (some "nodejs") = "express"
    ∧ languageToFramework (some "java") = "spring-boot"
    ∧ languageToFramework (some "go") = "gin"
    ∧ (∀ lang : String, lang ≠ "" →
        assocGet framework_map (pyLower lang) = none →
          languageToFramework (some lang) = pyLower lang) := by
  refine ⟨rfl, rfl, rfl, rfl, rfl, rfl, rfl, rfl, ?_⟩
  intro lang hne h
  unfold languageToFramework pyOrDefault
  simp only [hne, if_false, h]
  by_cases hp : pyLower lang = "python"
  · rw [hp] at h
    exact absurd h (by decide)
  · simp [hp]

/-- Witness for the amended C6 at the unrecognized language `ruby`. -/
theorem languageToFramework_amended_witness :
    languageToFramework (some "ruby") = pyLower "ruby" :=
  languageToFramework_amended.2.2.2.2.2.2.2.2 "ruby" (by decide) rfl

theorem run_orchestration_eq (O : StageOracles) (prompt : String)
    (lang : Option String) (s : Store) (req : RequirementsOutput)
    (dbd : DatabaseDesignOutput) (rev : ReviewOutput)
    (h1 : O.interpret_requirements prompt = .ok req)
    (h2 : O.design_database req = .ok dbd)
    (h3 : (validate_db_design (dbDesignToDict dbd)).is_valid = true)
    (h4 : O.review_database_design dbd = .ok rev) :
    run_orchestration O prompt lang s =
      if rev.approval_required then
        ({ status := .PENDING_APPROVAL, stage := some "approval",
           approval_token := some (tokenOfNat s.counter),
           requirements := some req, database_design := some dbd,
           review := some rev },
         (create_pending_approval prompt (encodeRequirements req)
           (encodeDbDesign dbd) (encodeReview rev) lang s).2)
      else
        (run_git_and_finish O req dbd rev none lang, s) := by
  unfold run_orchestration
  simp only [h1, h2, h4]
  rw [if_neg (by simp [h3] :
    ¬ (validate_db_design (dbDesignToDict dbd)).is_valid = false)]
  split <;> simp [create_pending_approval]

/-- C3: each failure path of `run_orchestration` terminates the run with
`FAILED` tagged by the failing stage, wraps the error text (or the
validator's issue list) into the issue list, retains exactly the artifacts
of the earlier stages, and leaves the store untouched; since the oracle
record is arbitrary beyond the failing stage, the explicit results show no
later stage is consulted — in particular an invalid schema never reaches
the Risk-Review stage. -/
theorem run_orchestration_failure_paths (O : StageOracles) (prompt : String)
    (lang : Option String) (s : Store) :
    (∀ e, O.interpret_requirements prompt = .error e →
      run_orchestration O prompt lang s =
        ({ status := .FAILED, stage := some "requirements",
           issues := some ["Failed to interpret requirements: " ++ e] }, s))
    ∧ (∀ req e, O.interpret_requirements prompt = .ok req →
        O.design_database req = .error e →
        run_orchestration O prompt lang s =
          ({ status := .FAILED, stage := some "database_design",
             requirements := some req,
             issues := some ["Failed to design database: " ++ e] }, s))
    ∧ (∀ req dbd, O.interpret_requirements prompt = .ok req →
        O.design_database req = .ok dbd →
        (validate_db_design (dbDesignToDict dbd)).is_valid = false →
        run_orchestration O prompt lang s =
          ({ status := .FAILED, stage := some "validation",
             requirements := some req, database_design := some dbd,
             issues := some (validate_db_design (dbDesignToDict dbd)).issues },
           s))
    ∧ (∀ req dbd e, O.interpret_requirements prompt = .ok req →
        O.design_database req = .ok dbd →
        (validate_db_design (dbDesignToDict dbd)).is_valid = true →
        O.review_database_design dbd = .error e →
        run_orchestration O prompt lang s =
          ({ status := .FAILED, stage := some "review",
             requirements := some req, database_design := some dbd,
             issues := some ["Failed to review design: " ++ e] }, s)) := by
  refine ⟨?_, ?_, ?_, ?_⟩
  · intro e h
    unfold run_orchestration
    simp only [h]
  · intro req e h1 h2
    unfold run_orchestration
    simp only [h1, h2]
  · intro req dbd h1 h2 hv
    unfold run_orchestration
    simp only [h1, h2, hv]
    simp
  · intro req dbd e h1 h2 hv h4
    unfold run_orchestration
    simp only [h1, h2, hv, h4]
    simp

/-- C1: when the three LLM stages succeed and structural validation passes,
`run_orchestration` returns `PENDING_APPROVAL` exactly when the produced
Risk-Review demands approval; in that case a fresh token (unmapped in the
pre-state) is stored keyed to the prompt, language and the three serialized
artifacts, and the result carries that token with the three artifact values;
when approval is not required the status is `SUCCESS` or `FAILED`, never
`PENDING_APPROVAL`. -/
theorem run_orchestration_approval_gating (O : StageOracles) (prompt : String)
    (lang : Option String) (s : Store) (req : RequirementsOutput)
    (dbd : DatabaseDesignOutput) (rev : ReviewOutput)
    (h1 : O.interpret_requirements prompt = .ok req)
    (h2 : O.design_database req = .ok dbd)
    (h3 : (validate_db_design (dbDesignToDict dbd)).is_valid = true)
    (h4 : O.review_database_design dbd = .ok rev)
    (hwf : storeWF s) :
    ((run_orchestration O prompt lang s).1.status = .PENDING_APPROVAL
        ↔ rev.approval_required = true)
    ∧ (rev.approval_required = true →
        s.pending (tokenOfNat s.counter) = none
        ∧ (run_orchestration O prompt lang s).1 =
            { status := .PENDING_APPROVAL, stage := some "approval",
              approval_token := some (tokenOfNat s.counter),
              requirements := some req, database_design := some dbd,
              review := some rev }
        ∧ get_pending_state (tokenOfNat s.counter)
            (run_orchestration O prompt lang s).2 =
          some ⟨tokenOfNat s.counter, prompt, encodeRequirements req,
                encodeDbDesign dbd, encodeReview rev, lang, none⟩)
    ∧ (rev.approval_required = false →
        (run_orchestration O prompt lang s).1.status = .SUCCESS
          ∨ (run_orchestration O prompt lang s).1.status = .FAILED) := by
  have hrun := run_orchestration_eq O prompt lang s req dbd rev h1 h2 h3 h4
  cases har : rev.approval_required with
  | true =>
    rw [har, if_pos rfl] at hrun
    refine ⟨by rw [hrun]; simp, fun _ => ⟨hwf s.counter (Nat.le_refl _),
      by rw [hrun], ?_⟩, fun hc => absurd hc (by simp)⟩
    rw [hrun]
    simp [get_pending_state, create_pending_approval]
  | false =>
    rw [har] at hrun
    simp only [Bool.false_eq_true, if_false] at hrun
    have hshape : (run_git_and_finish O req dbd rev none lang).status
        = .SUCCESS ∨ (run_git_and_finish O req dbd rev none lang).status
        = .FAILED := by
      unfold run_git_and_finish
      split <;> simp
    refine ⟨?_, fun hc => absurd hc (by simp), fun _ => by rw [hrun]; exact hshape⟩
    rw [hrun]
    rcases hshape with h | h <;> simp [h]

/-- Reduction of `run_orchestration_continue` when the token resolves to a
stored state with a recorded decision and the three dicts rehydrate. -/
theorem run_orchestration_continue_eq (O : StageOracles) (tok : String)
    (lang : Option String) (s : Store) (st : PendingApprovalState)
    (d : ApprovalDecision) (req : RequirementsOutput)
    (dbd : DatabaseDesignOutput) (rev : ReviewOutput)
    (hst : get_pending_state tok s = some st)
    (hd : get_approval_decision tok s = some d)
    (hr : decodeRequirements st.requirements = some req)
    (hb : decodeDbDesign st.database_design = some dbd)
    (hv : decodeReview st.review = some rev) :
    run_orchestration_continue O tok lang s =
      if d.approved = false then
        some ({ status := .HALTED, stage := some "approval",
                requirements := some req, database_design := some dbd,
                review := some rev,
                approval := some ⟨d.approved, d.comments, d.approved_by⟩,
                issues := some ["Design rejected by reviewer"] },
              (consume_pending_state tok s).2)
      else
        some (run_git_and_finish O req dbd rev
                (some ⟨d.approved, d.comments, d.approved_by⟩)
                (pyOrOpt lang (pyOrOpt st.language (some "python"))),
              (consume_pending_state tok s).2) := by
  unfold run_orchestration_continue
  simp only [hst, hd, hr, hb, hv]

/-- C4: `run_orchestration_continue` consumes the pending state exactly when
a recorded decision exists: an unknown token fails at the approval stage
with an invalid-or-expired issue and an unchanged store; a state without a
decision fails at the approval stage with a no-decision issue and is not
consumed; once a decision exists (approved or rejected) the returned store
is the consumed store — in the approved case regardless of whether the
finalization returns `SUCCESS` or `FAILED` — and a consumed token no longer
resolves. -/
theorem run_orchestration_continue_consume_frame (O : StageOracles)
    (tok : String) (lang : Option String) (s : Store) :
    (get_pending_state tok s = none →
      run_orchestration_continue O tok lang s =
        some ({ status := .FAILED, stage := some "approval",
                issues := some ["Invalid or expired approval token"] }, s))
    ∧ (∀ st, get_pending_state tok s = some st →
        get_approval_decision tok s = none →
        run_orchestration_continue O tok lang s =
          some ({ status := .FAILED, stage := some "approval",
                  issues := some
                    ["No approval decision recorded. Call POST /approval first."] },
                s))
    ∧ (∀ st d req dbd rev, get_pending_state tok s = some st →
        get_approval_decision tok s = some d →
        decodeRequirements st.requirements = some req →
        decodeDbDesign st.database_design = some dbd →
        decodeReview st.review = some rev →
        ∃ r, run_orchestration_continue O tok lang s =
          some (r, (consume_pending_state tok s).2))
    ∧ get_pending_state tok (consume_pending_state tok s).2 = none := by
  refine ⟨?_, ?_, ?_, ?_⟩
  · intro h
    unfold run_orchestration_continue
    simp only [h]
  · intro st hst hd
    unfold run_orchestration_continue
    simp only [hst, hd]
  · intro st d req dbd rev hst hd hr hb hv
    rw [run_orchestration_continue_eq O tok lang s st d req dbd rev
      hst hd hr hb hv]
    by_cases ha : d.approved = false
    · rw [if_pos ha]
      exact ⟨_, rfl⟩
    · rw [if_neg ha]
      exact ⟨_, rfl⟩
  · simp [get_pending_state, consume_pending_state]

/-- C5: with a stored pending state whose recorded decision is a rejection,
`run_orchestration_continue` returns `HALTED` at the approval stage with the
three rehydrated artifacts, the decision and a rejection issue, the state is
consumed so the token no longer resolves, and — the oracle record being
arbitrary — the Repo-Strategy stage is never invoked on this path. -/
theorem run_orchestration_continue_rejection (O : StageOracles)
    (tok : String) (lang : Option String) (s : Store)
    (st : PendingApprovalState) (d : ApprovalDecision)
    (req : RequirementsOutput) (dbd : DatabaseDesignOutput)
    (rev : ReviewOutput)
    (hst : get_pending_state tok s = some st)
    (hd : get_approval_decision tok s = some d)
    (hr : decodeRequirements st.requirements = some req)
    (hb : decodeDbDesign st.database_design = some dbd)
    (hv : decodeReview st.review = some rev)
    (hrej : d.approved = false) :
    run_orchestration_continue O tok lang s =
      some ({ status := .HALTED, stage := some "approval",
              requirements := some req, database_design := some dbd,
              review := some rev,
              approval := some ⟨false, d.comments, d.approved_by⟩,
              issues := some ["Design rejected by reviewer"] },
            (consume_pending_state tok s).2)
    ∧ get_pending_state tok (consume_pending_state tok s).2 = none := by
  constructor
  · rw [run_orchestration_continue_eq O tok lang s st d req dbd rev
      hst hd hr hb hv, if_pos hrej, hrej]
  · simp [get_pending_state, consume_pending_state]

theorem run_git_and_finish_shape (O : StageOracles)
    (req : RequirementsOutput) (dbd : DatabaseDesignOutput)
    (rev : ReviewOutput) (appr : Option ApprovalResponse)
    (lang : Option String) :
    (run_git_and_finish O req dbd rev appr lang).approval_token = none
    ∧ ((run_git_and_finish O req dbd rev appr lang).git ≠ none
        ↔ (run_git_and_finish O req dbd rev appr lang).status = .SUCCESS)
    ∧ ((run_git_and_finish O req dbd rev appr lang).status = .SUCCESS
        ∨ (run_git_and_finish O req dbd rev appr lang).status = .FAILED) := by
  unfold run_git_and_finish
  split <;> simp

theorem run_orchestration_payload_aux (O : StageOracles) (prompt : String)
    (lang : Option String) (s : Store) :
    ((run_orchestration O prompt lang s).1.approval_token ≠ none
        ↔ (run_orchestration O prompt lang s).1.status = .PENDING_APPROVAL)
    ∧ ((run_orchestration O prompt lang s).1.git ≠ none
        ↔ (run_orchestration O prompt lang s).1.status = .SUCCESS) := by
  unfold run_orchestration
  split
  · simp
  · split
    · simp
    · split
      · simp
      · split
        · simp
        · split
          · simp
          · obtain ⟨h1, h2, h3⟩ := run_git_and_finish_shape O _ _ _ none lang
            show ((run_git_and_finish O _ _ _ none lang).approval_token ≠ none
                ↔ (run_git_and_finish O _ _ _ none lang).status
                    = .PENDING_APPROVAL)
              ∧ ((run_git_and_finish O _ _ _ none lang).git ≠ none
                ↔ (run_git_and_finish O _ _ _ none lang).status = .SUCCESS)
            refine ⟨?_, h2⟩
            rw [h1]
            rcases h3 with h | h <;> simp [h]

theorem run_orchestration_continue_payload_aux (O : StageOracles)
    (tok : String) (lang : Option String) (s : Store) :
    ∀ r s2, run_orchestration_continue O tok lang s = some (r, s2) →
      (r.approval_token ≠ none ↔ r.status = .PENDING_APPROVAL)
      ∧ (r.git ≠ none ↔ r.status = .SUCCESS) := by
  intro r s2 h
  unfold run_orchestration_continue at h
  split at h
  · simp only [Option.some.injEq, Prod.mk.injEq] at h
    obtain ⟨hr, _⟩ := h
    subst hr
    simp
  · split at h
    · simp only [Option.some.injEq, Prod.mk.injEq] at h
      obtain ⟨hr, _⟩ := h
      subst hr
      simp
    · split at h
      · split at h
        · simp only [Option.some.injEq, Prod.mk.injEq] at h
          obtain ⟨hr, _⟩ := h
          subst hr
          simp
        · simp only [Option.some.injEq, Prod.mk.injEq] at h
          obtain ⟨hr, _⟩ := h
          subst hr
          obtain ⟨h1, h2, h3⟩ := run_git_and_finish_shape O _ _ _ _ _
          refine ⟨?_, h2⟩
          rw [h1]
          rcases h3 with hh | hh <;> simp [hh]
      · exact absurd h (by simp)

/-- C10: every result of `run_orchestration`, and every result
`run_orchestration_continue` returns, satisfies the payload-shape
invariant: the approval token is present exactly on `PENDING_APPROVAL`
results and the git payload (a strategy paired with an execution record by
construction) is present exactly on `SUCCESS` results. -/
theorem orchestration_result_payload_shape (O : StageOracles)
    (prompt tok : String) (lang : Option String) (s : Store) :
    ((run_orchestration O prompt lang s).1.approval_token ≠ none
        ↔ (run_orchestration O prompt lang s).1.status = .PENDING_APPROVAL)
    ∧ ((run_orchestration O prompt lang s).1.git ≠ none
        ↔ (run_orchestration O prompt lang s).1.status = .SUCCESS)
    ∧ (∀ r s2, run_orchestration_continue O tok lang s = some (r, s2) →
        (r.approval_token ≠ none ↔ r.status = .PENDING_APPROVAL)
        ∧ (r.git ≠ none ↔ r.status = .SUCCESS)) :=
  ⟨(run_orchestration_payload_aux O prompt lang s).1,
   (run_orchestration_payload_aux O prompt lang s).2,
   run_orchestration_continue_payload_aux O tok lang s⟩

/-- A concrete Requirements value used by the witnesses. -/
def reqSample : RequirementsOutput :=
  ⟨[⟨"User", "a user"⟩, ⟨"Organization", "an org"⟩],
   [⟨"User", "Organization", .many_to_many, some "Membership"⟩],
   ["single tenant"], ["billing"]⟩

/-- A concrete Schema-Design value that passes structural validation. -/
def dbdSample : DatabaseDesignOutput :=
  ⟨[⟨"users", [⟨"id", "UUID", ["PRIMARY KEY"]⟩,
               ⟨"email", "VARCHAR(255)", ["NOT NULL"]⟩]⟩],
   "3NF", ["users table follows 3NF"],
   "CREATE TABLE users (id UUID PRIMARY KEY);"⟩

/-- A concrete Risk-Review value that demands human approval. -/
def revSample : ReviewOutput := ⟨"looks fine", [], .MEDIUM, true⟩

/-- A concrete Repo-Strategy value. -/
def gitSample : GitStrategyOutput :=
  ⟨"feature/db-schema", "main", ["src/", "tests/"], "create branch", []⟩

/-- A concrete oracle record whose stages all succeed. -/
def oracleSample : StageOracles :=
  ⟨fun _ => .ok reqSample, fun _ => .ok dbdSample, fun _ => .ok revSample,
   fun _ => .ok gitSample, "2026-01-01T00:00:00Z"⟩

/-- An oracle record whose Requirements stage raises. -/
def oracleFailReq : StageOracles :=
  { oracleSample with interpret_requirements := fun _ => .error "boom" }

/-- Witness for C1: with the sample oracles the run pends for approval. -/
theorem run_orchestration_approval_gating_witness :
    (run_orchestration oracleSample "p" (some "python") emptyStore).1.status
      = .PENDING_APPROVAL :=
  (run_orchestration_approval_gating oracleSample "p" (some "python")
    emptyStore reqSample dbdSample revSample rfl rfl (by decide) rfl
    (fun _ _ => rfl)).1.mpr rfl

/-- Witness for C3 at a Requirements-stage failure. -/
theorem run_orchestration_failure_paths_witness :
    run_orchestration oracleFailReq "p" none emptyStore =
      ({ status := .FAILED, stage := some "requirements",
         issues := some ["Failed to interpret requirements: " ++ "boom"] },
       emptyStore) :=
  (run_orchestration_failure_paths oracleFailReq "p" none emptyStore).1
    "boom" rfl

/-- Witness for C4 at an unknown token. -/
theorem run_orchestration_continue_consume_frame_witness :
    run_orchestration_continue oracleSample (tokenOfNat 0) none emptyStore =
      some ({ status := .FAILED, stage := some "approval",
              issues := some ["Invalid or expired approval token"] },
            emptyStore) :=
  (run_orchestration_continue_consume_frame oracleSample (tokenOfNat 0)
    none emptyStore).1 rfl

/-- A store holding one pending state whose recorded decision is a
rejection. -/
def storeRejected : Store :=
  (submit_approval (tokenOfNat 0) false none none
    (create_pending_approval "p" (encodeRequirements reqSample)
      (encodeDbDesign dbdSample) (encodeReview revSample) (some "python")
      emptyStore).2).2

/-- The pending state stored in `storeRejected`. -/
def stRejected : PendingApprovalState :=
  ⟨tokenOfNat 0, "p", encodeRequirements reqSample, encodeDbDesign dbdSample,
   encodeReview revSample, some "python", some ⟨false, none, none⟩⟩

/-- Witness for C5: after the rejected continue, the token is invalid. -/
theorem run_orchestration_continue_rejection_witness :
    get_pending_state (tokenOfNat 0)
      (consume_pending_state (tokenOfNat 0) storeRejected).2 = none :=
  (run_orchestration_continue_rejection oracleSample (tokenOfNat 0) none
    storeRejected stRejected ⟨false, none, none⟩ reqSample dbdSample
    revSample rfl rfl (decodeRequirements_encodeRequirements reqSample)
    (decodeDbDesign_encodeDbDesign dbdSample)
    (decodeReview_encodeReview revSample) rfl).2

/-- The result `run_orchestration_continue` returns for an unknown token. -/
def resInvalidToken : OrchestrationResult :=
  { status := .FAILED, stage := some "approval",
    issues := some ["Invalid or expired approval token"] }

/-- Witness for C10 on a concrete continue result. -/
theorem orchestration_result_payload_shape_witness :
    (resInvalidToken.approval_token ≠ none
        ↔ resInvalidToken.status = .PENDING_APPROVAL)
    ∧ (resInvalidToken.git ≠ none ↔ resInvalidToken.status = .SUCCESS) :=
  (orchestration_result_payload_shape oracleSample "p" (tokenOfNat 0) none
    emptyStore).2.2 resInvalidToken emptyStore rfl
